import Mathlib

/-!
Verification development for the folco-renderer layered icon pipeline.

The Rust sources are shallowly embedded: `u64` versions are naturals reduced
modulo `2^64` at each wrapping operation, `f32` configuration scalars are
rationals (the spec treats the exact float rounding of the rasterizer and the
HSL colour math as out-of-scope primitives), hash maps are functions to
`Option`, and the low-level raster primitives (SVG parsing/rasterisation,
per-pixel HSL hue rotation, colour darkening, alpha compositing) are collected
in an abstract `RasterPrims` record which every theorem quantifies over.
All state-mutating Rust methods become state-passing functions.
-/

namespace Folco

/-- An RGBA pixel, 8 bits per channel (modelled as naturals in 0..255). -/
structure Rgba where
  r : Nat
  g : Nat
  b : Nat
  a : Nat
deriving DecidableEq

/-- Raster buffer in row-major RGBA order, mirroring image::RgbaImage. -/
structure RgbaImage where
  width : Nat
  height : Nat
  pixels : List Rgba
deriving DecidableEq

/-- Pixel access, row-major; out-of-range reads yield transparent black. -/
def RgbaImage.getPixel (img : RgbaImage) (x y : Nat) : Rgba :=
  img.pixels.getD (y * img.width + x) ⟨0, 0, 0, 0⟩

/-- A rectangle in pixel coordinates (src/icon.rs RectPx). -/
structure RectPx where
  x : Nat
  y : Nat
  width : Nat
  height : Nat
deriving DecidableEq

/-- Right edge coordinate, x + width. -/
def RectPx.right (r : RectPx) : Nat := r.x + r.width

/-- Bottom edge coordinate, y + height. -/
def RectPx.bottom (r : RectPx) : Nat := r.y + r.height

/-- A single icon image: pixel data, display scale factor and content bounds
(src/icon.rs IconImage).  The f32 scale is modelled as a rational. -/
structure IconImage where
  data : RgbaImage
  scale : ℚ
  content_bounds : RectPx
deriving DecidableEq

/-- Logical width of an icon: pixel width divided by the display scale. -/
def IconImage.logicalWidth (icon : IconImage) : ℚ :=
  (icon.data.width : ℚ) / icon.scale

/-- The dominant colour property emitted into the render context
(src/layer/mod.rs DominantColor). -/
structure DominantColor where
  r : Nat
  g : Nat
  b : Nat
  a : Nat
deriving DecidableEq

/-- The tuple view of a dominant colour (DominantColor::as_tuple). -/
def DominantColor.as_tuple (c : DominantColor) : Rgba := ⟨c.r, c.g, c.b, c.a⟩

/-- Render context threaded through the pipeline: the current image plus the
typed property bag.  The Rust bag is a TypeId-keyed map but only one property
kind (DominantColor) exists, so it is one optional slot. -/
structure RenderContext where
  image : IconImage
  dominant : Option DominantColor

/-- Fresh context holding the base image with an empty property bag
(RenderContext::new). -/
def RenderContext.new (img : IconImage) : RenderContext := ⟨img, none⟩

/-- Store the dominant-colour property, overwriting any prior value
(RenderContext::set). -/
def RenderContext.set (ctx : RenderContext) (c : DominantColor) : RenderContext :=
  { ctx with dominant := some c }

/-- Wrapping 64-bit addition: u64::wrapping_add. -/
def wrapAdd (a b : Nat) : Nat := (a + b) % (2 ^ 64)

/-- Combined version of upstream dependencies (src/layer/mod.rs
DependencyVersion, a u64 newtype). -/
structure DependencyVersion where
  v : Nat
deriving DecidableEq

/-- DependencyVersion::NONE, the root-layer dependency. -/
def DependencyVersion.NONE : DependencyVersion := ⟨0⟩

/-- DependencyVersion::from_version. -/
def DependencyVersion.from_version (version : Nat) : DependencyVersion := ⟨version⟩

/-- DependencyVersion::combine: wrapping sum of the given versions. -/
def DependencyVersion.combine (versions : List Nat) : DependencyVersion :=
  ⟨versions.foldl (fun acc v => wrapAdd acc v) 0⟩

/-- Snapshot of all layer versions (src/layer/mod.rs LayerVersions). -/
structure LayerVersions where
  hue : Nat
  decal : Nat
  overlay : Nat
deriving DecidableEq

/-- Cache key: width, height and the scale's bit pattern.  f32::to_bits is
injective on float values, so the key is modelled by the scale itself. -/
structure CacheKey where
  width : Nat
  height : Nat
  scale_bits : ℚ
deriving DecidableEq

/-- CacheKey::new. -/
def CacheKey.mk' (width height : Nat) (scale : ℚ) : CacheKey := ⟨width, height, scale⟩

/-- CacheKey::from_icon. -/
def CacheKey.from_icon (icon : IconImage) : CacheKey :=
  ⟨icon.data.width, icon.data.height, icon.scale⟩

/-- The LayerConfig trait: the policy-defined differs predicate that drives
cache invalidation. -/
class LayerConfig (C : Type) where
  differs_from : C → C → Bool

/-- Generic layer state (src/layer/mod.rs Layer<C>): optional configuration,
enabled flag, u64 version counter and a size-keyed cache of images tagged with
the dependency version at cache time. -/
structure Layer (C : Type) where
  config : Option C
  enabled : Bool
  version : Nat
  cache : CacheKey → Option (IconImage × Nat)

/-- Layer::default: no configuration, enabled, version 0, empty cache. -/
def Layer.default (C : Type) : Layer C :=
  { config := none, enabled := true, version := 0, cache := fun _ => none }

/-- Layer::is_active: enabled and configured. -/
def Layer.is_active (l : Layer C) : Bool := l.enabled && l.config.isSome

/-- Layer::set_enabled: on an actual flip, increment the version (wrapping)
and clear the cache; otherwise change nothing.  Returns whether a change
occurred. -/
def Layer.set_enabled (l : Layer C) (enabled : Bool) : Layer C × Bool :=
  if l.enabled ≠ enabled then
    ({ l with enabled := enabled, version := wrapAdd l.version 1, cache := fun _ => none }, true)
  else
    (l, false)

/-- Layer::set_config: none→none is unchanged, none↔some is always changed,
some↔some defers to the policy differs predicate; on a change, replace the
configuration, increment the version (wrapping) and clear the cache. -/
def Layer.set_config [LayerConfig C] (l : Layer C) (config : Option C) : Layer C × Bool :=
  let differs :=
    match l.config, config with
    | none, none => false
    | some _, none => true
    | none, some _ => true
    | some old, some new => LayerConfig.differs_from old new
  if differs then
    ({ l with config := config, version := wrapAdd l.version 1, cache := fun _ => none }, true)
  else
    (l, false)

/-- Layer::invalidate: increment the version (wrapping) and clear the cache. -/
def Layer.invalidate (l : Layer C) : Layer C :=
  { l with version := wrapAdd l.version 1, cache := fun _ => none }

/-- Layer::get_cached: the entry for the key, provided its stored dependency
version equals the given one. -/
def Layer.get_cached (l : Layer C) (key : CacheKey) (deps : DependencyVersion) :
    Option IconImage :=
  match l.cache key with
  | some (img, stored_dep) => if stored_dep = deps.v then some img else none
  | none => none

/-- Layer::store: insert an image into the cache under the key, tagged with
the dependency version. -/
def Layer.store (l : Layer C) (key : CacheKey) (image : IconImage)
    (deps : DependencyVersion) : Layer C :=
  { l with cache := fun k => if k = key then some (image, deps.v) else l.cache k }

/-- The LayerEffect trait data for a configuration type: upstream dependency
expression, image transform and property emission. -/
structure LayerEffect (C : Type) where
  dependencies : LayerVersions → DependencyVersion
  transform : C → RenderContext → RenderContext
  emit : C → RenderContext → RenderContext

/-- Layer::apply: no-op when inactive; on a valid cache entry adopt the cached
image and re-invoke emit against the current channel; on a miss run transform
then emit and store the resulting image under the key with the just-computed
dependency version. -/
def Layer.apply (l : Layer C) (E : LayerEffect C) (ctx : RenderContext)
    (key : CacheKey) (versions : LayerVersions) : Layer C × RenderContext :=
  match l.config, l.enabled with
  | some c, true =>
    let deps := E.dependencies versions
    match l.get_cached key deps with
    | some cached => (l, E.emit c { ctx with image := cached })
    | none =>
      let ctx1 := E.emit c (E.transform c ctx)
      (l.store key ctx1.image deps, ctx1)
  | _, _ => (l, ctx)

/-- Composite cache layer (src/layer/mod.rs CompositeLayer): version counter
plus size-keyed cache, no configuration or enabled flag. -/
structure CompositeLayer where
  version : Nat
  cache : CacheKey → Option (IconImage × Nat)

/-- CompositeLayer::default. -/
def CompositeLayer.default : CompositeLayer := ⟨0, fun _ => none⟩

/-- CompositeLayer::invalidate. -/
def CompositeLayer.invalidate (l : CompositeLayer) : CompositeLayer :=
  { version := wrapAdd l.version 1, cache := fun _ => none }

/-- CompositeLayer::get_cached. -/
def CompositeLayer.get_cached (l : CompositeLayer) (key : CacheKey)
    (deps : DependencyVersion) : Option IconImage :=
  match l.cache key with
  | some (img, stored_dep) => if stored_dep = deps.v then some img else none
  | none => none

/-- CompositeLayer::store. -/
def CompositeLayer.store (l : CompositeLayer) (key : CacheKey) (image : IconImage)
    (deps : DependencyVersion) : CompositeLayer :=
  { l with cache := fun k => if k = key then some (image, deps.v) else l.cache k }

/-- Truncating cast of a nonnegative float quantity to u32 (`as u32` in Rust):
truncation toward zero, saturating at 0 below and u32::MAX above. -/
def f32AsU32 (q : ℚ) : Nat :=
  if q ≤ 0 then 0 else min (q.num.toNat / q.den) 4294967295

/-- f32::clamp on the modelled rationals. -/
def qClamp (q lo hi : ℚ) : ℚ := max lo (min q hi)

/-- f32::rem_euclid on the modelled rationals. -/
def qRemEuclid (a b : ℚ) : ℚ := a - b * ⌊a / b⌋

/-- SVG source (src/layer/svg.rs SvgSource): raw markup or a symbolic emoji
reference resolved through an external asset table. -/
inductive SvgSource where
  | Raw : String → SvgSource
  | Emoji : String → SvgSource
deriving DecidableEq

/-- SvgSource::from_svg. -/
def SvgSource.from_svg (svg : String) : SvgSource := .Raw svg

/-- Abstract raster primitives: the external collaborators of the pipeline
(vector rasterisation with textual recolouring, emoji asset lookup, per-pixel
HSL hue rotation, HSL darkening, source-over compositing).  Their numeric
behaviour is out of scope; theorems quantify over any instantiation. -/
structure RasterPrims where
  renderSvgWithColor : String → Nat → Option Rgba → Option RgbaImage
  emojiLookup : String → Option String
  applyHueData : ℚ → RgbaImage → RgbaImage
  darken : Rgba → ℚ → Rgba
  compositeOver : RgbaImage → RgbaImage → Int → Int → RgbaImage

/-- SvgSource::resolve: raw markup resolves to itself, an emoji resolves
through the asset table (which may report unsupported). -/
def SvgSource.resolve (P : RasterPrims) : SvgSource → Option String
  | .Raw svg => some svg
  | .Emoji e => P.emojiLookup e

/-- render_source_with_color (src/layer/svg.rs): resolve the source then
rasterise it with the optional replacement colour. -/
def render_source_with_color (P : RasterPrims) (source : SvgSource) (size : Nat)
    (fill_color : Option Rgba) : Option RgbaImage :=
  (source.resolve P).bind fun svg_data => P.renderSvgWithColor svg_data size fill_color

/-- render_source (src/layer/svg.rs): resolve then rasterise with no
recolouring. -/
def render_source (P : RasterPrims) (source : SvgSource) (size : Nat) :
    Option RgbaImage :=
  (source.resolve P).bind fun svg_data => P.renderSvgWithColor svg_data size none

/-- Accumulator for the dominant-colour sampling loop. -/
structure SampleAcc where
  r : Nat
  g : Nat
  b : Nat
  a : Nat
  count : Nat
deriving DecidableEq

/-- Half-open coordinate range lo..hi, empty when hi ≤ lo (Rust Range). -/
def coordRange (lo hi : Nat) : List Nat := List.range' lo (hi - lo)

/-- One step of the sampling loop body at pixel (x, y): alpha-weighted sums
over pixels with alpha greater than zero. -/
def sampleStep (img : RgbaImage) (acc : SampleAcc) (x y : Nat) : SampleAcc :=
  let p := img.getPixel x y
  if p.a > 0 then
    ⟨acc.r + p.r * p.a, acc.g + p.g * p.a, acc.b + p.b * p.a, acc.a + p.a, acc.count + 1⟩
  else acc

/-- sample_dominant_color (src/layer/hue_rotation.rs): alpha-weighted average
over the content-bounds region clipped to the image, defaulting to opaque
mid-gray (128, 128, 128, 255) when no pixel has positive alpha.  Totals use
u64 in Rust; they are modelled as exact naturals. -/
def sample_dominant_color (icon : IconImage) : Rgba :=
  let bounds := icon.content_bounds
  let img := icon.data
  let acc := (coordRange bounds.y (min bounds.bottom img.height)).foldl
    (fun acc y =>
      (coordRange bounds.x (min bounds.right img.width)).foldl
        (fun acc x => sampleStep img acc x y) acc)
    ⟨0, 0, 0, 0, 0⟩
  if acc.count = 0 ∨ acc.a = 0 then ⟨128, 128, 128, 255⟩
  else ⟨acc.r / acc.a, acc.g / acc.a, acc.b / acc.a, acc.a / acc.count⟩

/-- Hue rotation configuration (src/layer/hue_rotation.rs), degrees in
[0, 360) when built through the constructor. -/
structure HueRotationConfig where
  degrees : ℚ
deriving DecidableEq

/-- HueRotationConfig::new: the angle is normalised with rem_euclid(360). -/
def HueRotationConfig.new (degrees : ℚ) : HueRotationConfig :=
  ⟨qRemEuclid degrees 360⟩

/-- Hue configurations differ when the angle gap exceeds the 0.001 epsilon. -/
instance : LayerConfig HueRotationConfig where
  differs_from c other := decide ((1 : ℚ)/1000 < |c.degrees - other.degrees|)

/-- The hue-rotation layer effect: no upstream dependencies; the transform
rewrites the pixel data through the HSL primitive preserving scale and bounds;
emit publishes the dominant colour sampled from the current (already rotated)
image. -/
def hueEffect (P : RasterPrims) : LayerEffect HueRotationConfig where
  dependencies _ := DependencyVersion.NONE
  transform c ctx :=
    { ctx with image :=
        ⟨P.applyHueData c.degrees ctx.image.data, ctx.image.scale, ctx.image.content_bounds⟩ }
  emit _ ctx :=
    let color := sample_dominant_color ctx.image
    ctx.set ⟨color.r, color.g, color.b, color.a⟩

/-- Decal configuration (src/layer/decal.rs): a vector source plus a scale
fraction clamped to [0, 1] by the constructors. -/
structure DecalConfig where
  source : SvgSource
  scale : ℚ
deriving DecidableEq

/-- DecalConfig::new from raw markup, clamping the scale. -/
def DecalConfig.new (svg : String) (scale : ℚ) : DecalConfig :=
  ⟨.Raw svg, qClamp scale 0 1⟩

/-- DecalConfig::from_source, clamping the scale. -/
def DecalConfig.from_source (source : SvgSource) (scale : ℚ) : DecalConfig :=
  ⟨source, qClamp scale 0 1⟩

/-- Decal configurations differ on source inequality or a scale gap beyond
the 0.0001 epsilon. -/
instance : LayerConfig DecalConfig where
  differs_from c other :=
    decide (c.source ≠ other.source ∨ (1 : ℚ)/10000 < |c.scale - other.scale|)

/-- The dominant colour a decal resolves: prefer the channel's published
value, otherwise sample it directly from the current image. -/
def decalDominant (ctx : RenderContext) : Rgba :=
  match ctx.dominant with
  | some c => c.as_tuple
  | none => sample_dominant_color ctx.image

/-- Target dimension of a decal or overlay: min content-bounds dimension
times the configured scale, truncated to u32. -/
def scaledTarget (bounds : RectPx) (scale : ℚ) : Nat :=
  f32AsU32 ((min bounds.width bounds.height : ℚ) * scale)

/-- The decal layer effect (src/layer/decal.rs): depends on the hue layer
version; the transform resolves and darkens the dominant colour, renders the
source at the scaled target size recoloured to it, and composites the result
centered in the content bounds; zero target size or an unrenderable source is
a silent no-op.  Emit is the trait default (nothing). -/
def decalEffect (P : RasterPrims) : LayerEffect DecalConfig where
  dependencies versions := DependencyVersion.from_version versions.hue
  transform c ctx :=
    let dominant_color := decalDominant ctx
    let darkened := P.darken dominant_color ((15 : ℚ)/100)
    let bounds := ctx.image.content_bounds
    let decal_size := scaledTarget bounds c.scale
    if decal_size = 0 then ctx
    else
      match render_source_with_color P c.source decal_size (some darkened) with
      | none => ctx
      | some decal_img =>
        let center_x := (bounds.x : Int) + ((bounds.width : Int) - (decal_img.width : Int)).tdiv 2
        let center_y := (bounds.y : Int) + ((bounds.height : Int) - (decal_img.height : Int)).tdiv 2
        { ctx with image :=
            ⟨P.compositeOver ctx.image.data decal_img center_x center_y,
             ctx.image.scale, ctx.image.content_bounds⟩ }
  emit _ ctx := ctx

/-- Overlay placement (src/layer/overlay.rs OverlayPosition). -/
inductive OverlayPosition where
  | BottomLeft
  | BottomRight
  | TopLeft
  | TopRight
  | Center
deriving DecidableEq

/-- Overlay configuration: source, placement and a scale fraction clamped to
[0, 1] by the constructor. -/
structure SvgOverlayConfig where
  source : SvgSource
  position : OverlayPosition
  scale : ℚ
deriving DecidableEq

/-- SvgOverlayConfig::new, clamping the scale. -/
def SvgOverlayConfig.new (source : SvgSource) (position : OverlayPosition)
    (scale : ℚ) : SvgOverlayConfig :=
  ⟨source, position, qClamp scale 0 1⟩

/-- Overlay configurations differ on source, placement, or a scale gap beyond
the 0.0001 epsilon. -/
instance : LayerConfig SvgOverlayConfig where
  differs_from c other :=
    decide (c.source ≠ other.source ∨ c.position ≠ other.position ∨
      (1 : ℚ)/10000 < |c.scale - other.scale|)

/-- SvgOverlayConfig::calculate_position: placement offset of the overlay
relative to the content bounds, in i32 arithmetic. -/
def SvgOverlayConfig.calculate_position (c : SvgOverlayConfig) (bounds : RectPx)
    (overlay_width overlay_height : Nat) : Int × Int :=
  let bx := (bounds.x : Int)
  let by' := (bounds.y : Int)
  let bw := (bounds.width : Int)
  let bh := (bounds.height : Int)
  let ow := (overlay_width : Int)
  let oh := (overlay_height : Int)
  match c.position with
  | .TopLeft => (bx, by')
  | .TopRight => (bx + bw - ow, by')
  | .BottomLeft => (bx, by' + bh - oh)
  | .BottomRight => (bx + bw - ow, by' + bh - oh)
  | .Center => (bx + (bw - ow).tdiv 2, by' + (bh - oh).tdiv 2)

/-- The overlay layer effect (src/layer/overlay.rs): no upstream
dependencies; renders the source (no recolouring) at the scaled target size
and composites it at the configured placement; zero target size or an
unrenderable source is a silent no-op.  Emit is the trait default. -/
def overlayEffect (P : RasterPrims) : LayerEffect SvgOverlayConfig where
  dependencies _ := DependencyVersion.NONE
  transform c ctx :=
    let bounds := ctx.image.content_bounds
    let overlay_size := scaledTarget bounds c.scale
    if overlay_size = 0 then ctx
    else
      match render_source P c.source overlay_size with
      | none => ctx
      | some overlay_img =>
        let pos := c.calculate_position bounds overlay_img.width overlay_img.height
        { ctx with image :=
            ⟨P.compositeOver ctx.image.data overlay_img pos.1 pos.2,
             ctx.image.scale, ctx.image.content_bounds⟩ }
  emit _ ctx := ctx

/-- The layer pipeline (src/layer/mod.rs LayerPipeline): hue, decal and
overlay stages plus the composite cache. -/
structure LayerPipeline where
  hue : Layer HueRotationConfig
  decal : Layer DecalConfig
  overlay : Layer SvgOverlayConfig
  composite : CompositeLayer

/-- LayerPipeline::default. -/
def LayerPipeline.default : LayerPipeline :=
  ⟨Layer.default _, Layer.default _, Layer.default _, CompositeLayer.default⟩

/-- LayerPipeline::layer_versions. -/
def LayerPipeline.layer_versions (pl : LayerPipeline) : LayerVersions :=
  ⟨pl.hue.version, pl.decal.version, pl.overlay.version⟩

/-- LayerPipeline::invalidate_all. -/
def LayerPipeline.invalidate_all (pl : LayerPipeline) : LayerPipeline :=
  ⟨pl.hue.invalidate, pl.decal.invalidate, pl.overlay.invalidate, pl.composite.invalidate⟩

/-- LayerPipeline::composite_dependencies: wrapping sum of the three stage
versions. -/
def LayerPipeline.composite_dependencies (pl : LayerPipeline) : DependencyVersion :=
  DependencyVersion.combine [pl.hue.version, pl.decal.version, pl.overlay.version]

/-- LayerPipeline::render: check the composite cache; on a miss, thread a
fresh context through hue, decal and overlay in order and store the final
image in the composite cache under the freshly computed version. -/
def LayerPipeline.render (P : RasterPrims) (pl : LayerPipeline) (base : IconImage) :
    IconImage × LayerPipeline :=
  let key := CacheKey.from_icon base
  let composite_deps := pl.composite_dependencies
  match pl.composite.get_cached key composite_deps with
  | some cached => (cached, pl)
  | none =>
    let ctx0 := RenderContext.new base
    let versions := pl.layer_versions
    let hueOut := pl.hue.apply (hueEffect P) ctx0 key versions
    let decalOut := pl.decal.apply (decalEffect P) hueOut.2 key versions
    let overlayOut := pl.overlay.apply (overlayEffect P) decalOut.2 key versions
    let composite1 := pl.composite.store key overlayOut.2.image composite_deps
    (overlayOut.2.image, ⟨hueOut.1, decalOut.1, overlayOut.1, composite1⟩)

/-- Rust Iterator::min_by_key over a list: the first element attaining the
minimal key, or none for the empty list. -/
def minByKey (f : α → Nat) : List α → Option α
  | [] => none
  | x :: xs => some (xs.foldl (fun acc y => if f y < f acc then y else acc) x)

/-- A collection of icon images (src/icon.rs IconSet). -/
structure IconSet where
  images : List IconImage
deriving DecidableEq

/-- The selection key used by find_by_logical_size:
`(logical_w - target as f32).abs() as u32`. -/
def logicalKey (target_size : Nat) (img : IconImage) : Nat :=
  f32AsU32 |img.logicalWidth - (target_size : ℚ)|

/-- IconSet::find_by_logical_size: the image minimising the truncated
absolute difference between its logical width and the target. -/
def IconSet.find_by_logical_size (s : IconSet) (target_size : Nat) : Option IconImage :=
  minByKey (logicalKey target_size) s.images

/-- The customizer (src/customizer.rs IconCustomizer): immutable base icon
set plus the layer pipeline. -/
structure IconCustomizer where
  base_icons : IconSet
  pipeline : LayerPipeline

/-- IconCustomizer::new. -/
def IconCustomizer.new (base_icons : IconSet) : IconCustomizer :=
  ⟨base_icons, LayerPipeline.default⟩

/-- IconCustomizer::render: resolve the closest base image by logical size
(nothing when the base set is empty) and run one pipeline render. -/
def IconCustomizer.render (P : RasterPrims) (cust : IconCustomizer)
    (logical_size : Nat) : Option IconImage × IconCustomizer :=
  match cust.base_icons.find_by_logical_size logical_size with
  | none => (none, cust)
  | some base =>
    let out := cust.pipeline.render P base
    (some out.1, { cust with pipeline := out.2 })

/-- IconCustomizer::clear_cache: invalidate every layer and the composite. -/
def IconCustomizer.clear_cache (cust : IconCustomizer) : IconCustomizer :=
  { cust with pipeline := cust.pipeline.invalidate_all }

/-- Serializable SVG source (src/profile.rs SerializableSvgSource): a flat
record with mutually exclusive raw-markup and emoji fields. -/
structure SerializableSvgSource where
  svg_data : Option String
  emoji : Option String
deriving DecidableEq

/-- SerializableSvgSource::from_svg. -/
def SerializableSvgSource.from_svg (svg : String) : SerializableSvgSource :=
  ⟨some svg, none⟩

/-- SerializableSvgSource::from_emoji. -/
def SerializableSvgSource.from_emoji (emoji : String) : SerializableSvgSource :=
  ⟨none, some emoji⟩

/-- Conversion From<&SvgSource> for SerializableSvgSource. -/
def SvgSource.toSerializable : SvgSource → SerializableSvgSource
  | .Raw svg => .from_svg svg
  | .Emoji e => .from_emoji e

/-- Conversion From<SerializableSvgSource> for SvgSource: the emoji field
wins, then raw markup, else an empty raw source. -/
def SerializableSvgSource.toSvgSource (s : SerializableSvgSource) : SvgSource :=
  match s.emoji with
  | some e => .Emoji e
  | none =>
    match s.svg_data with
    | some svg => .Raw svg
    | none => .Raw ""

/-- Serializable hue settings (src/profile.rs HueRotationSettings). -/
structure HueRotationSettings where
  degrees : ℚ
  enabled : Bool
deriving DecidableEq

/-- Serializable decal settings (src/profile.rs DecalSettings). -/
structure DecalSettings where
  source : SerializableSvgSource
  scale : ℚ
  enabled : Bool
deriving DecidableEq

/-- Serializable overlay placement (src/profile.rs SerializablePosition). -/
inductive SerializablePosition where
  | BottomLeft
  | BottomRight
  | TopLeft
  | TopRight
  | Center
deriving DecidableEq

/-- Conversion From<OverlayPosition> for SerializablePosition. -/
def OverlayPosition.toSerializable : OverlayPosition → SerializablePosition
  | .BottomLeft => .BottomLeft
  | .BottomRight => .BottomRight
  | .TopLeft => .TopLeft
  | .TopRight => .TopRight
  | .Center => .Center

/-- Conversion From<SerializablePosition> for OverlayPosition. -/
def SerializablePosition.toOverlayPosition : SerializablePosition → OverlayPosition
  | .BottomLeft => .BottomLeft
  | .BottomRight => .BottomRight
  | .TopLeft => .TopLeft
  | .TopRight => .TopRight
  | .Center => .Center

/-- Serializable overlay settings (src/profile.rs OverlaySettings). -/
structure OverlaySettings where
  source : SerializableSvgSource
  position : SerializablePosition
  scale : ℚ
  enabled : Bool
deriving DecidableEq

/-- A customization profile (src/profile.rs CustomizationProfile): optional
settings per stage. -/
structure CustomizationProfile where
  hue_rotation : Option HueRotationSettings
  decal : Option DecalSettings
  overlay : Option OverlaySettings
deriving DecidableEq

/-- IconCustomizer::apply_profile (src/customizer.rs): per stage, a present
settings record sets the configuration through the constructor and then the
enabled flag; an absent record clears the configuration (without touching the
enabled flag). -/
def IconCustomizer.apply_profile (cust : IconCustomizer)
    (profile : CustomizationProfile) : IconCustomizer :=
  let pl := cust.pipeline
  let hue1 :=
    match profile.hue_rotation with
    | some settings =>
      let afterConfig := pl.hue.set_config (some (HueRotationConfig.new settings.degrees))
      (afterConfig.1.set_enabled settings.enabled).1
    | none => (pl.hue.set_config none).1
  let decal1 :=
    match profile.decal with
    | some settings =>
      let source := settings.source.toSvgSource
      let afterConfig := pl.decal.set_config (some (DecalConfig.from_source source settings.scale))
      (afterConfig.1.set_enabled settings.enabled).1
    | none => (pl.decal.set_config none).1
  let overlay1 :=
    match profile.overlay with
    | some settings =>
      let source := settings.source.toSvgSource
      let afterConfig := pl.overlay.set_config
        (some (SvgOverlayConfig.new source settings.position.toOverlayPosition settings.scale))
      (afterConfig.1.set_enabled settings.enabled).1
    | none => (pl.overlay.set_config none).1
  { cust with pipeline := { pl with hue := hue1, decal := decal1, overlay := overlay1 } }

/-- IconCustomizer::export_profile (src/customizer.rs): per configured stage,
capture the configuration fields and the current enabled flag. -/
def IconCustomizer.export_profile (cust : IconCustomizer) : CustomizationProfile :=
  let hue_rotation := cust.pipeline.hue.config.map fun c =>
    HueRotationSettings.mk c.degrees cust.pipeline.hue.enabled
  let decal := cust.pipeline.decal.config.map fun c =>
    DecalSettings.mk c.source.toSerializable c.scale cust.pipeline.decal.enabled
  let overlay := cust.pipeline.overlay.config.map fun c =>
    OverlaySettings.mk c.source.toSerializable c.position.toSerializable c.scale
      cust.pipeline.overlay.enabled
  ⟨hue_rotation, decal, overlay⟩

/-- Cache-free output of one stage on a context: pass-through when inactive,
otherwise emit after transform.  This is the recomputation a stage performs on
a cache miss; it is the reference against which cache entries are judged. -/
def stageOut (E : LayerEffect C) (l : Layer C) (ctx : RenderContext) : RenderContext :=
  match l.config, l.enabled with
  | some c, true => E.emit c (E.transform c ctx)
  | _, _ => ctx

/-- Cache-free render of the whole pipeline: the context produced by running
hue, decal and overlay in order on a fresh context. -/
def pureRender (P : RasterPrims) (pl : LayerPipeline) (base : IconImage) : RenderContext :=
  stageOut (overlayEffect P) pl.overlay
    (stageOut (decalEffect P) pl.decal
      (stageOut (hueEffect P) pl.hue (RenderContext.new base)))

/-- A stage cache is consistent for a key and incoming context when any entry
it would serve (stored dependency version equal to the current one) holds the
image recomputation would produce. -/
def layerConsistent (E : LayerEffect C) (l : Layer C) (key : CacheKey)
    (versions : LayerVersions) (ctx : RenderContext) : Prop :=
  ∀ img, l.get_cached key (E.dependencies versions) = some img →
    img = (stageOut E l ctx).image

/-- All four caches of a pipeline are consistent for a base image: each stage
cache against the context reaching that stage, and the composite cache
against the cache-free pipeline output.  This holds in particular for any
pipeline whose caches were populated only by render itself. -/
def pipelineConsistent (P : RasterPrims) (pl : LayerPipeline) (base : IconImage) : Prop :=
  let key := CacheKey.from_icon base
  let versions := pl.layer_versions
  let ctx0 := RenderContext.new base
  let ctx1 := stageOut (hueEffect P) pl.hue ctx0
  let ctx2 := stageOut (decalEffect P) pl.decal ctx1
  layerConsistent (hueEffect P) pl.hue key versions ctx0 ∧
  layerConsistent (decalEffect P) pl.decal key versions ctx1 ∧
  layerConsistent (overlayEffect P) pl.overlay key versions ctx2 ∧
  ∀ img, pl.composite.get_cached key pl.composite_dependencies = some img →
    img = (pureRender P pl base).image

/-- Trivial instantiation of the abstract raster primitives, used to evaluate
the pipeline on concrete inputs: rasterisation always fails, the emoji table
is empty, hue rotation and darkening are the identity, compositing keeps the
destination. -/
def trivialPrims : RasterPrims where
  renderSvgWithColor := fun _ _ _ => none
  emojiLookup := fun _ => none
  applyHueData := fun _ data => data
  darken := fun c _ => c
  compositeOver := fun dest _ _ _ => dest

/-- A concrete 1x1 opaque red base image at scale 1. -/
def baseRed : IconImage := ⟨⟨1, 1, [⟨255, 0, 0, 255⟩]⟩, 1, ⟨0, 0, 1, 1⟩⟩

/-- A concrete 1x1 opaque blue image, distinct from baseRed. -/
def garbageIcon : IconImage := ⟨⟨1, 1, [⟨0, 0, 255, 255⟩]⟩, 1, ⟨0, 0, 1, 1⟩⟩

/-- A default pipeline whose composite cache was populated through the public
store method with an image unrelated to any recomputation. -/
def poisonedPipeline : LayerPipeline :=
  { LayerPipeline.default with
    composite := CompositeLayer.default.store (CacheKey.from_icon baseRed) garbageIcon
      LayerPipeline.default.composite_dependencies }

/-- A hue layer holding a configuration and a cache entry for baseRed stored
under the hue dependency version 0, serving garbageIcon. -/
def hueLayerCached : Layer HueRotationConfig :=
  { config := some ⟨90⟩, enabled := true, version := 1,
    cache := fun k => if k = CacheKey.from_icon baseRed then some (garbageIcon, 0) else none }

/-- A 41x41 image at scale 2 (logical width 20.5). -/
def img41 : IconImage := ⟨⟨41, 41, [⟨255, 0, 0, 255⟩]⟩, 2, ⟨0, 0, 41, 41⟩⟩

/-- A 40x40 image at scale 2 (logical width exactly 20). -/
def img40 : IconImage := ⟨⟨40, 40, [⟨0, 0, 255, 255⟩]⟩, 2, ⟨0, 0, 40, 40⟩⟩

/-- Customizer over the set listing img41 before img40. -/
def cust8 : IconCustomizer := IconCustomizer.new ⟨[img41, img40]⟩

/-- A 16x16 image at scale 1. -/
def img16 : IconImage := ⟨⟨16, 16, [⟨255, 0, 0, 255⟩]⟩, 1, ⟨0, 0, 16, 16⟩⟩

/-- A 32x32 image at scale 1. -/
def img32 : IconImage := ⟨⟨32, 32, [⟨0, 255, 0, 255⟩]⟩, 1, ⟨0, 0, 32, 32⟩⟩

/-- Customizer over a base set containing 16x16@1x and 32x32@1x. -/
def custD : IconCustomizer := IconCustomizer.new ⟨[img16, img32]⟩

/-- Customizer whose hue stage was given a non-normalised 500-degree
configuration through the public set_config entry point (the degrees field is
public in Rust, so such a value is constructible). -/
def cust500 : IconCustomizer :=
  { base_icons := ⟨[]⟩,
    pipeline := { LayerPipeline.default with
      hue := ((Layer.default HueRotationConfig).set_config (some ⟨500⟩)).1 } }

/-- Customizer in normalised form: hue at 120 degrees, a decal at scale 1/2
with its stage disabled, no overlay. -/
def custNorm : IconCustomizer :=
  { base_icons := ⟨[]⟩,
    pipeline := { LayerPipeline.default with
      hue := ((Layer.default HueRotationConfig).set_config (some ⟨120⟩)).1,
      decal :=
        ((((Layer.default DecalConfig).set_config
          (some ⟨.Raw "star", 1/2⟩)).1).set_enabled false).1 } }

/-- A 2x2 fully transparent image whose content bounds cover it entirely. -/
def clearIcon : IconImage :=
  ⟨⟨2, 2, [⟨0, 0, 0, 0⟩, ⟨0, 0, 0, 0⟩, ⟨0, 0, 0, 0⟩, ⟨0, 0, 0, 0⟩]⟩, 1, ⟨0, 0, 2, 2⟩⟩

/-- A decal configuration whose scale is zero, so the computed target
dimension is zero. -/
def decalZero : DecalConfig := DecalConfig.new "dot" 0

/-- An overlay configuration referencing an emoji symbol. -/
def overlayEmoji : SvgOverlayConfig := SvgOverlayConfig.new (.Emoji "duck") .Center (1/2)

/-- Two render contexts with equal image and equal property slot are equal. -/
theorem RenderContext.ext' (a b : RenderContext) (h1 : a.image = b.image)
    (h2 : a.dominant = b.dominant) : a = b := by
  cases a; cases b; cases h1; cases h2; rfl

/-- An inactive layer's apply is a no-op on both layer and context. -/
theorem Layer.apply_of_inactive {C : Type} (E : LayerEffect C) (l : Layer C)
    (ctx : RenderContext) (key : CacheKey) (versions : LayerVersions)
    (h : l.is_active = false) : l.apply E ctx key versions = (l, ctx) := by
  obtain ⟨cfg, en, ver, cache⟩ := l
  cases cfg <;> cases en <;> simp_all [Layer.apply, Layer.is_active]

/-- An active layer's apply on a valid cache entry returns the layer
unchanged and the context with the cached image, passed through emit. -/
theorem Layer.apply_of_hit {C : Type} (E : LayerEffect C) (l : Layer C)
    (ctx : RenderContext) (key : CacheKey) (versions : LayerVersions)
    (c : C) (img : IconImage) (hc : l.config = some c) (he : l.enabled = true)
    (hcache : l.get_cached key (E.dependencies versions) = some img) :
    l.apply E ctx key versions = (l, E.emit c { ctx with image := img }) := by
  obtain ⟨cfg, en, ver, cache⟩ := l
  simp only at hc he
  subst hc; subst he
  simp only [Layer.apply, hcache]

/-- An active layer's apply on a cache miss runs transform then emit and
stores the resulting image under the key with the computed dependency
version. -/
theorem Layer.apply_of_miss {C : Type} (E : LayerEffect C) (l : Layer C)
    (ctx : RenderContext) (key : CacheKey) (versions : LayerVersions)
    (c : C) (hc : l.config = some c) (he : l.enabled = true)
    (hcache : l.get_cached key (E.dependencies versions) = none) :
    l.apply E ctx key versions =
      (l.store key (E.emit c (E.transform c ctx)).image (E.dependencies versions),
       E.emit c (E.transform c ctx)) := by
  obtain ⟨cfg, en, ver, cache⟩ := l
  simp only at hc he
  subst hc; subst he
  simp only [Layer.apply, hcache]

/-- Apply never changes a layer's configuration, enabled flag or version. -/
theorem Layer.apply_state {C : Type} (E : LayerEffect C) (l : Layer C)
    (ctx : RenderContext) (key : CacheKey) (versions : LayerVersions) :
    (l.apply E ctx key versions).1.config = l.config ∧
    (l.apply E ctx key versions).1.enabled = l.enabled ∧
    (l.apply E ctx key versions).1.version = l.version := by
  obtain ⟨cfg, en, ver, cache⟩ := l
  cases cfg with
  | none => cases en <;> exact ⟨rfl, rfl, rfl⟩
  | some c =>
    cases en with
    | false => exact ⟨rfl, rfl, rfl⟩
    | true =>
      rcases hg : Layer.get_cached ⟨some c, true, ver, cache⟩ key (E.dependencies versions)
          with _ | img <;>
        simp [Layer.apply, hg, Layer.store]

/-- A freshly stored composite entry is served back for the same key and
dependency version. -/
theorem CompositeLayer.get_cached_store (l : CompositeLayer) (key : CacheKey)
    (img : IconImage) (deps : DependencyVersion) :
    (l.store key img deps).get_cached key deps = some img := by
  simp [CompositeLayer.store, CompositeLayer.get_cached]

/-- Claim C6: the composite dependency combination is not collision-free:
two distinct triples of (hue, decal, overlay) version values have the same
wrapping u64 sum under DependencyVersion::combine. -/
theorem claim_C6_combine_collision :
    ∃ v1 v2 : LayerVersions, v1 ≠ v2 ∧
      DependencyVersion.combine [v1.hue, v1.decal, v1.overlay] =
        DependencyVersion.combine [v2.hue, v2.decal, v2.overlay] :=
  ⟨⟨1, 0, 0⟩, ⟨0, 1, 0⟩, by decide, by decide⟩

/-- Claim C3: set_config reports no change for none→none, always reports a
change across none↔some, defers to the policy differs predicate for
some↔some; exactly when a change is reported the configuration is replaced,
the version is incremented (wrapping) and the cache is emptied, and otherwise
the layer is left entirely untouched. -/
theorem claim_C3_set_config {C : Type} [LayerConfig C] (l : Layer C) (cfg : Option C) :
    (l.config = none → cfg = none → l.set_config cfg = (l, false)) ∧
    (l.config = none → cfg.isSome → (l.set_config cfg).2 = true) ∧
    (l.config.isSome → cfg = none → (l.set_config cfg).2 = true) ∧
    (∀ old new', l.config = some old → cfg = some new' →
      (l.set_config cfg).2 = LayerConfig.differs_from old new') ∧
    ((l.set_config cfg).2 = true →
      (l.set_config cfg).1 =
        { config := cfg, enabled := l.enabled, version := wrapAdd l.version 1,
          cache := fun _ => none }) ∧
    ((l.set_config cfg).2 = false → (l.set_config cfg).1 = l) := by
  obtain ⟨c0, en, ver, cache⟩ := l
  cases c0 <;> cases cfg <;>
    simp_all [Layer.set_config] <;>
    rename_i old new' <;>
    cases h : LayerConfig.differs_from old new' <;> simp [h]

/-- Witness for claim C3 at concrete inputs: configuring a default hue layer
reports a change and bumps the version to 1 while emptying the cache, and a
none→none call reports no change and leaves the layer untouched. -/
theorem claim_C3_set_config_witness :
    ((Layer.default HueRotationConfig).set_config (some ⟨10⟩)).2 = true ∧
    ((Layer.default HueRotationConfig).set_config (some ⟨10⟩)).1.version = 1 ∧
    ((Layer.default HueRotationConfig).set_config none).2 = false ∧
    ((Layer.default HueRotationConfig).set_config none).1 = Layer.default HueRotationConfig := by
  have h2 := (claim_C3_set_config (Layer.default HueRotationConfig) (some ⟨10⟩)).2.1 rfl rfl
  have h5 := (claim_C3_set_config (Layer.default HueRotationConfig) (some ⟨10⟩)).2.2.2.2.1 h2
  have h1 := (claim_C3_set_config (Layer.default HueRotationConfig) none).1 rfl rfl
  exact ⟨h2, by rw [h5]; decide, by rw [h1], by rw [h1]⟩

/-- Claim C4: set_enabled never modifies the stored configuration; an actual
flip increments the version (wrapping) and clears the cache while keeping the
configuration field exactly as it was, and a no-flip call changes nothing and
returns false. -/
theorem claim_C4_set_enabled {C : Type} (l : Layer C) (b : Bool) :
    ((l.set_enabled b).1.config = l.config) ∧
    (l.enabled ≠ b →
      l.set_enabled b =
        ({ config := l.config, enabled := b, version := wrapAdd l.version 1,
           cache := fun _ => none }, true)) ∧
    (l.enabled = b → l.set_enabled b = (l, false)) := by
  obtain ⟨c0, en, ver, cache⟩ := l
  cases en <;> cases b <;> simp [Layer.set_enabled]

/-- Witness for claim C4 at concrete inputs: disabling a configured hue layer
keeps its configuration, bumps the version and reports true; re-asserting the
current flag changes nothing. -/
theorem claim_C4_set_enabled_witness :
    ((hueLayerCached.set_enabled false).1.config = some ⟨90⟩) ∧
    (hueLayerCached.set_enabled false =
      ({ config := some ⟨90⟩, enabled := false, version := wrapAdd 1 1,
         cache := fun _ => none }, true)) ∧
    (hueLayerCached.set_enabled true = (hueLayerCached, false)) := by
  refine ⟨?_, ?_, ?_⟩
  · have h := (claim_C4_set_enabled hueLayerCached false).1
    rw [h]; rfl
  · have h := (claim_C4_set_enabled hueLayerCached false).2.1 (by decide)
    exact h
  · exact (claim_C4_set_enabled hueLayerCached true).2.2 rfl

/-- Claim C2: for an active layer, apply with a cache entry whose stored
dependency version equals the freshly computed one replaces the channel's
image with the cached image and re-invokes emit against the current channel
(in particular the hue policy freshly publishes a DominantColor); on a cache
miss it invokes transform, then emit, then stores the resulting image under
the size key with the just-computed dependency version; apply is a no-op when
the layer is not active. -/
theorem claim_C2_apply_contract {C : Type} (E : LayerEffect C) (l : Layer C)
    (ctx : RenderContext) (key : CacheKey) (versions : LayerVersions) :
    (l.is_active = false → l.apply E ctx key versions = (l, ctx)) ∧
    (∀ c, l.config = some c → l.enabled = true →
      (∀ img stored, l.cache key = some (img, stored) →
        stored = (E.dependencies versions).v →
        l.apply E ctx key versions = (l, E.emit c { ctx with image := img })) ∧
      (l.get_cached key (E.dependencies versions) = none →
        l.apply E ctx key versions =
          (l.store key (E.emit c (E.transform c ctx)).image (E.dependencies versions),
           E.emit c (E.transform c ctx)))) ∧
    (∀ (P : RasterPrims) (hc : HueRotationConfig) (ctx1 : RenderContext),
      ((hueEffect P).emit hc ctx1).dominant =
        some ⟨(sample_dominant_color ctx1.image).r, (sample_dominant_color ctx1.image).g,
              (sample_dominant_color ctx1.image).b, (sample_dominant_color ctx1.image).a⟩) := by
  refine ⟨fun h => Layer.apply_of_inactive E l ctx key versions h, fun c hc he => ⟨?_, ?_⟩, ?_⟩
  · intro img stored hentry hstored
    have hget : l.get_cached key (E.dependencies versions) = some img := by
      simp [Layer.get_cached, hentry, hstored]
    exact Layer.apply_of_hit E l ctx key versions c img hc he hget
  · intro hget
    exact Layer.apply_of_miss E l ctx key versions c hc he hget
  · intro P hc ctx1
    rfl

/-- Witness for claim C2 at concrete inputs: a default (unconfigured) decal
layer passes the context through; the cached hue layer serves its stored
image for baseRed and freshly publishes the dominant colour sampled from it;
the same layer with its cache emptied runs the transform. -/
theorem claim_C2_apply_contract_witness :
    ((Layer.default DecalConfig).apply (decalEffect trivialPrims)
        (RenderContext.new baseRed) (CacheKey.from_icon baseRed) ⟨1, 0, 0⟩ =
      (Layer.default DecalConfig, RenderContext.new baseRed)) ∧
    ((hueLayerCached.apply (hueEffect trivialPrims)
        (RenderContext.new baseRed) (CacheKey.from_icon baseRed) ⟨1, 0, 0⟩).2.image =
      garbageIcon) ∧
    ((hueLayerCached.apply (hueEffect trivialPrims)
        (RenderContext.new baseRed) (CacheKey.from_icon baseRed) ⟨1, 0, 0⟩).2.dominant =
      some ⟨(sample_dominant_color garbageIcon).r, (sample_dominant_color garbageIcon).g,
            (sample_dominant_color garbageIcon).b, (sample_dominant_color garbageIcon).a⟩) := by
  have hinactive := (claim_C2_apply_contract (decalEffect trivialPrims)
    (Layer.default DecalConfig) (RenderContext.new baseRed)
    (CacheKey.from_icon baseRed) ⟨1, 0, 0⟩).1 (by decide)
  have hhit := ((claim_C2_apply_contract (hueEffect trivialPrims) hueLayerCached
    (RenderContext.new baseRed) (CacheKey.from_icon baseRed) ⟨1, 0, 0⟩).2.1
    ⟨90⟩ rfl rfl).1 garbageIcon 0 (by simp [hueLayerCached]) rfl
  refine ⟨hinactive, ?_, ?_⟩
  · rw [hhit]; rfl
  · rw [hhit]; rfl

/-- Claim C7: for decal and overlay transforms, a computed target dimension
of zero leaves the channel's image unchanged, an unrenderable vector source
(rasterisation failure on resolved markup) leaves it unchanged, and an
unresolvable symbolic reference makes the source rendering helpers report
nothing (hence the same silent no-op); no failure propagates. -/
theorem claim_C7_silent_noop :
    (∀ (P : RasterPrims) (c : DecalConfig) (ctx : RenderContext),
      scaledTarget ctx.image.content_bounds c.scale = 0 ∨
        render_source_with_color P c.source (scaledTarget ctx.image.content_bounds c.scale)
          (some (P.darken (decalDominant ctx) ((15 : ℚ)/100))) = none →
      (decalEffect P).transform c ctx = ctx) ∧
    (∀ (P : RasterPrims) (c : SvgOverlayConfig) (ctx : RenderContext),
      scaledTarget ctx.image.content_bounds c.scale = 0 ∨
        render_source P c.source (scaledTarget ctx.image.content_bounds c.scale) = none →
      (overlayEffect P).transform c ctx = ctx) ∧
    (∀ (P : RasterPrims) (e : String) (n : Nat) (col : Option Rgba),
      P.emojiLookup e = none →
      render_source_with_color P (SvgSource.Emoji e) n col = none ∧
        render_source P (SvgSource.Emoji e) n = none) := by
  refine ⟨?_, ?_, ?_⟩
  · intro P c ctx h
    rcases h with h | h
    · simp [decalEffect, h]
    · simp [decalEffect, h]
  · intro P c ctx h
    rcases h with h | h
    · simp [overlayEffect, h]
    · simp [overlayEffect, h]
  · intro P e n col h
    constructor <;> simp [render_source_with_color, render_source, SvgSource.resolve, h]

/-- Witness for claim C7 at concrete inputs: a zero-scale decal leaves the
context unchanged, an emoji overlay under the empty asset table leaves the
context unchanged, and the emoji source itself resolves to nothing. -/
theorem claim_C7_silent_noop_witness :
    ((decalEffect trivialPrims).transform decalZero (RenderContext.new baseRed) =
      RenderContext.new baseRed) ∧
    ((overlayEffect trivialPrims).transform overlayEmoji (RenderContext.new baseRed) =
      RenderContext.new baseRed) ∧
    (render_source trivialPrims (SvgSource.Emoji "duck") 8 = none) := by
  refine ⟨?_, ?_, ?_⟩
  · exact claim_C7_silent_noop.1 trivialPrims decalZero (RenderContext.new baseRed)
      (Or.inl (by norm_num [scaledTarget, f32AsU32, qClamp, decalZero, DecalConfig.new,
        RenderContext.new, baseRed]))
  · exact claim_C7_silent_noop.2.1 trivialPrims overlayEmoji (RenderContext.new baseRed)
      (Or.inr rfl)
  · exact (claim_C7_silent_noop.2.2 trivialPrims "duck" 8 none rfl).2

/-- The decal transform never writes the property slot. -/
theorem decal_transform_dominant (P : RasterPrims) (c : DecalConfig) (ctx : RenderContext) :
    ((decalEffect P).transform c ctx).dominant = ctx.dominant := by
  by_cases h : scaledTarget ctx.image.content_bounds c.scale = 0
  · simp [decalEffect, h]
  · rcases hr : render_source_with_color P c.source (scaledTarget ctx.image.content_bounds c.scale)
        (some (P.darken (decalDominant ctx) ((15 : ℚ)/100))) with _ | dimg <;>
      simp [decalEffect, h, hr]

/-- The overlay transform never writes the property slot. -/
theorem overlay_transform_dominant (P : RasterPrims) (c : SvgOverlayConfig) (ctx : RenderContext) :
    ((overlayEffect P).transform c ctx).dominant = ctx.dominant := by
  by_cases h : scaledTarget ctx.image.content_bounds c.scale = 0
  · simp [overlayEffect, h]
  · rcases hr : render_source P c.source (scaledTarget ctx.image.content_bounds c.scale)
        with _ | oimg <;>
      simp [overlayEffect, h, hr]

/-- The hue transform never writes the property slot. -/
theorem hue_transform_dominant (P : RasterPrims) (c : HueRotationConfig) (ctx : RenderContext) :
    ((hueEffect P).transform c ctx).dominant = ctx.dominant := rfl

/-- The hue emit step never changes the image. -/
theorem hue_emit_image (P : RasterPrims) (c : HueRotationConfig) (ctx : RenderContext) :
    ((hueEffect P).emit c ctx).image = ctx.image := rfl

/-- Apply leaves the property slot unchanged whenever the effect's transform
and emit both leave it unchanged. -/
theorem apply_dominant_preserved {C : Type} (E : LayerEffect C) (l : Layer C)
    (ctx : RenderContext) (key : CacheKey) (versions : LayerVersions)
    (hd : ∀ c ctx1, (E.transform c ctx1).dominant = ctx1.dominant)
    (he : ∀ c ctx1, (E.emit c ctx1).dominant = ctx1.dominant) :
    ((l.apply E ctx key versions).2).dominant = ctx.dominant := by
  obtain ⟨cfg, en, ver, cache⟩ := l
  cases cfg with
  | none => cases en <;> rfl
  | some c =>
    cases en with
    | false => rfl
    | true =>
      rcases hg : Layer.get_cached ⟨some c, true, ver, cache⟩ key (E.dependencies versions)
          with _ | img <;>
        simp [Layer.apply, hg, hd, he]

/-- Claim C5: when the hue stage is not active, its apply leaves the fresh
context untouched — so no DominantColor is published into the channel at any
point of the per-stage chain — and the decal stage resolves its colour by
sampling the dominant colour directly from the current, un-hue-rotated base
image. -/
theorem claim_C5_property_isolation (P : RasterPrims) (pl : LayerPipeline) (base : IconImage)
    (h : pl.hue.is_active = false) :
    (pl.hue.apply (hueEffect P) (RenderContext.new base) (CacheKey.from_icon base)
        pl.layer_versions).2 = RenderContext.new base ∧
    decalDominant (pl.hue.apply (hueEffect P) (RenderContext.new base) (CacheKey.from_icon base)
        pl.layer_versions).2 = sample_dominant_color base ∧
    (pl.decal.apply (decalEffect P)
        (pl.hue.apply (hueEffect P) (RenderContext.new base) (CacheKey.from_icon base)
          pl.layer_versions).2
        (CacheKey.from_icon base) pl.layer_versions).2.dominant = none ∧
    (pl.overlay.apply (overlayEffect P)
        (pl.decal.apply (decalEffect P)
          (pl.hue.apply (hueEffect P) (RenderContext.new base) (CacheKey.from_icon base)
            pl.layer_versions).2
          (CacheKey.from_icon base) pl.layer_versions).2
        (CacheKey.from_icon base) pl.layer_versions).2.dominant = none := by
  have h1 := Layer.apply_of_inactive (hueEffect P) pl.hue (RenderContext.new base)
    (CacheKey.from_icon base) pl.layer_versions h
  have h1' : (pl.hue.apply (hueEffect P) (RenderContext.new base) (CacheKey.from_icon base)
      pl.layer_versions).2 = RenderContext.new base := by rw [h1]
  have h3 : (pl.decal.apply (decalEffect P)
      (pl.hue.apply (hueEffect P) (RenderContext.new base) (CacheKey.from_icon base)
        pl.layer_versions).2
      (CacheKey.from_icon base) pl.layer_versions).2.dominant = none := by
    rw [apply_dominant_preserved (decalEffect P) pl.decal _ _ _
      (decal_transform_dominant P) (fun c ctx1 => rfl), h1']
    rfl
  refine ⟨h1', by rw [h1']; rfl, h3, ?_⟩
  rw [apply_dominant_preserved (overlayEffect P) pl.overlay _ _ _
    (overlay_transform_dominant P) (fun c ctx1 => rfl), h3]

/-- Witness for claim C5 at concrete inputs: in a default pipeline (hue
unconfigured) rendering baseRed, the hue stage passes the fresh context
through, the decal stage would resolve its colour by sampling baseRed, and
the channel carries no DominantColor after the decal and overlay stages. -/
theorem claim_C5_property_isolation_witness :
    (LayerPipeline.default.hue.apply (hueEffect trivialPrims) (RenderContext.new baseRed)
        (CacheKey.from_icon baseRed) LayerPipeline.default.layer_versions).2 =
      RenderContext.new baseRed ∧
    decalDominant (LayerPipeline.default.hue.apply (hueEffect trivialPrims)
        (RenderContext.new baseRed) (CacheKey.from_icon baseRed)
        LayerPipeline.default.layer_versions).2 = sample_dominant_color baseRed ∧
    (LayerPipeline.default.decal.apply (decalEffect trivialPrims)
        (LayerPipeline.default.hue.apply (hueEffect trivialPrims) (RenderContext.new baseRed)
          (CacheKey.from_icon baseRed) LayerPipeline.default.layer_versions).2
        (CacheKey.from_icon baseRed) LayerPipeline.default.layer_versions).2.dominant = none := by
  have h := claim_C5_property_isolation trivialPrims LayerPipeline.default baseRed (by decide)
  exact ⟨h.1, h.2.1, h.2.2.1⟩

/-- A fold whose step fixes every accumulator on the list's elements returns
its initial accumulator. -/
theorem foldl_fixed {α β : Type} {step : β → α → β} {l : List α} {init : β}
    (h : ∀ b a, a ∈ l → step b a = b) : l.foldl step init = init := by
  induction l generalizing init with
  | nil => rfl
  | cons x xs ih =>
    rw [List.foldl_cons, h init x (List.mem_cons_self x xs)]
    exact ih fun b a ha => h b a (List.mem_cons_of_mem x ha)

/-- Membership in a half-open coordinate range gives its bounds. -/
theorem mem_coordRange {m lo hi : Nat} (h : m ∈ coordRange lo hi) : lo ≤ m ∧ m < hi := by
  unfold coordRange at h
  have := List.mem_range'_1.mp h
  omega

/-- Claim C10: when no pixel of the clipped content-bounds region has alpha
greater than zero, sampling the dominant colour returns the fixed opaque
mid-gray (128, 128, 128, 255); consequently a decal over such an image, with
nothing published in the channel, resolves mid-gray and is coloured from the
darkened mid-gray. -/
theorem claim_C10_transparent_midgray (icon : IconImage)
    (h : ∀ x y, icon.content_bounds.y ≤ y →
      y < min icon.content_bounds.bottom icon.data.height →
      icon.content_bounds.x ≤ x →
      x < min icon.content_bounds.right icon.data.width →
      (icon.data.getPixel x y).a = 0) :
    sample_dominant_color icon = ⟨128, 128, 128, 255⟩ ∧
    (∀ (P : RasterPrims) (ctx : RenderContext), ctx.image = icon → ctx.dominant = none →
      decalDominant ctx = ⟨128, 128, 128, 255⟩ ∧
      P.darken (decalDominant ctx) ((15 : ℚ)/100) =
        P.darken ⟨128, 128, 128, 255⟩ ((15 : ℚ)/100)) := by
  have hfold : (coordRange icon.content_bounds.y
      (min icon.content_bounds.bottom icon.data.height)).foldl
      (fun acc y =>
        (coordRange icon.content_bounds.x
          (min icon.content_bounds.right icon.data.width)).foldl
          (fun acc x => sampleStep icon.data acc x y) acc)
      ⟨0, 0, 0, 0, 0⟩ = (⟨0, 0, 0, 0, 0⟩ : SampleAcc) := by
    apply foldl_fixed
    intro b y hy
    apply foldl_fixed
    intro b2 x hx
    obtain ⟨hy1, hy2⟩ := mem_coordRange hy
    obtain ⟨hx1, hx2⟩ := mem_coordRange hx
    have ha := h x y hy1 hy2 hx1 hx2
    simp [sampleStep, ha]
  have hmain : sample_dominant_color icon = ⟨128, 128, 128, 255⟩ := by
    unfold sample_dominant_color
    dsimp only
    rw [hfold]
    rfl
  refine ⟨hmain, ?_⟩
  intro P ctx himg hdom
  have hdd : decalDominant ctx = ⟨128, 128, 128, 255⟩ := by
    unfold decalDominant
    rw [hdom, himg, hmain]
  exact ⟨hdd, by rw [hdd]⟩

/-- Witness for claim C10 at a concrete input: the fully transparent 2x2
image samples to opaque mid-gray, and a decal over it with an empty channel
resolves exactly that mid-gray. -/
theorem claim_C10_transparent_midgray_witness :
    sample_dominant_color clearIcon = ⟨128, 128, 128, 255⟩ ∧
    decalDominant (RenderContext.new clearIcon) = ⟨128, 128, 128, 255⟩ := by
  have hz : ∀ n, (clearIcon.data.pixels.getD n ⟨0, 0, 0, 0⟩).a = 0 := by
    intro n
    match n with
    | 0 => rfl
    | 1 => rfl
    | 2 => rfl
    | 3 => rfl
    | (n + 4) => rfl
  have h := claim_C10_transparent_midgray clearIcon
    (fun x y _ _ _ _ => hz (y * clearIcon.data.width + x))
  exact ⟨h.1, (h.2 trivialPrims (RenderContext.new clearIcon) rfl rfl).1⟩

/-- On a composite cache hit, render returns the cached image and leaves the
pipeline untouched. -/
theorem render_hit_eq (P : RasterPrims) (pl : LayerPipeline) (base : IconImage)
    (cached : IconImage)
    (hg : pl.composite.get_cached (CacheKey.from_icon base) pl.composite_dependencies =
      some cached) :
    pl.render P base = (cached, pl) := by
  unfold LayerPipeline.render
  dsimp only
  rw [hg]

/-- On a composite cache miss, render threads the context through the three
stages and stores the final image in the composite cache. -/
theorem render_miss_eq (P : RasterPrims) (pl : LayerPipeline) (base : IconImage)
    (hg : pl.composite.get_cached (CacheKey.from_icon base) pl.composite_dependencies = none) :
    pl.render P base =
      ((pl.overlay.apply (overlayEffect P)
          (pl.decal.apply (decalEffect P)
            (pl.hue.apply (hueEffect P) (RenderContext.new base) (CacheKey.from_icon base)
              pl.layer_versions).2
            (CacheKey.from_icon base) pl.layer_versions).2
          (CacheKey.from_icon base) pl.layer_versions).2.image,
       ⟨(pl.hue.apply (hueEffect P) (RenderContext.new base) (CacheKey.from_icon base)
           pl.layer_versions).1,
        (pl.decal.apply (decalEffect P)
          (pl.hue.apply (hueEffect P) (RenderContext.new base) (CacheKey.from_icon base)
            pl.layer_versions).2
          (CacheKey.from_icon base) pl.layer_versions).1,
        (pl.overlay.apply (overlayEffect P)
          (pl.decal.apply (decalEffect P)
            (pl.hue.apply (hueEffect P) (RenderContext.new base) (CacheKey.from_icon base)
              pl.layer_versions).2
            (CacheKey.from_icon base) pl.layer_versions).2
          (CacheKey.from_icon base) pl.layer_versions).1,
        pl.composite.store (CacheKey.from_icon base)
          (pl.overlay.apply (overlayEffect P)
            (pl.decal.apply (decalEffect P)
              (pl.hue.apply (hueEffect P) (RenderContext.new base) (CacheKey.from_icon base)
                pl.layer_versions).2
              (CacheKey.from_icon base) pl.layer_versions).2
            (CacheKey.from_icon base) pl.layer_versions).2.image
          pl.composite_dependencies⟩) := by
  unfold LayerPipeline.render
  dsimp only
  rw [hg]

/-- Render never changes any stage's configuration, enabled flag or version. -/
theorem render_preserves (P : RasterPrims) (pl : LayerPipeline) (base : IconImage) :
    (pl.render P base).2.hue.config = pl.hue.config ∧
    (pl.render P base).2.hue.enabled = pl.hue.enabled ∧
    (pl.render P base).2.hue.version = pl.hue.version ∧
    (pl.render P base).2.decal.config = pl.decal.config ∧
    (pl.render P base).2.decal.enabled = pl.decal.enabled ∧
    (pl.render P base).2.decal.version = pl.decal.version ∧
    (pl.render P base).2.overlay.config = pl.overlay.config ∧
    (pl.render P base).2.overlay.enabled = pl.overlay.enabled ∧
    (pl.render P base).2.overlay.version = pl.overlay.version := by
  rcases hg : pl.composite.get_cached (CacheKey.from_icon base) pl.composite_dependencies
      with _ | cached
  · rw [render_miss_eq P pl base hg]
    refine ⟨(Layer.apply_state _ _ _ _ _).1, (Layer.apply_state _ _ _ _ _).2.1,
      (Layer.apply_state _ _ _ _ _).2.2, (Layer.apply_state _ _ _ _ _).1,
      (Layer.apply_state _ _ _ _ _).2.1, (Layer.apply_state _ _ _ _ _).2.2,
      (Layer.apply_state _ _ _ _ _).1, (Layer.apply_state _ _ _ _ _).2.1,
      (Layer.apply_state _ _ _ _ _).2.2⟩
  · rw [render_hit_eq P pl base cached hg]
    exact ⟨rfl, rfl, rfl, rfl, rfl, rfl, rfl, rfl, rfl⟩

/-- Render never changes the composite dependency version. -/
theorem render_composite_deps (P : RasterPrims) (pl : LayerPipeline) (base : IconImage) :
    (pl.render P base).2.composite_dependencies = pl.composite_dependencies := by
  have h := render_preserves P pl base
  unfold LayerPipeline.composite_dependencies
  rw [h.2.2.1, h.2.2.2.2.2.1, h.2.2.2.2.2.2.2.2]

/-- Rendering twice in succession with no intervening mutation returns the
same image. -/
theorem render_twice (P : RasterPrims) (pl : LayerPipeline) (base : IconImage) :
    ((pl.render P base).2.render P base).1 = (pl.render P base).1 := by
  rcases hg : pl.composite.get_cached (CacheKey.from_icon base) pl.composite_dependencies
      with _ | cached
  · have h1 := render_miss_eq P pl base hg
    have hcache : (pl.render P base).2.composite.get_cached (CacheKey.from_icon base)
        ((pl.render P base).2.composite_dependencies) = some ((pl.render P base).1) := by
      rw [render_composite_deps P pl base, h1]
      exact CompositeLayer.get_cached_store _ _ _ _
    rw [render_hit_eq P ((pl.render P base).2) base ((pl.render P base).1) hcache]
  · have h1 := render_hit_eq P pl base cached hg
    rw [h1, h1]

/-- Two stages with the same configuration and enabled flag have the same
cache-free output. -/
theorem stageOut_congr {C : Type} (E : LayerEffect C) (l l' : Layer C) (ctx : RenderContext)
    (hc : l.config = l'.config) (he : l.enabled = l'.enabled) :
    stageOut E l ctx = stageOut E l' ctx := by
  unfold stageOut
  rw [hc, he]

/-- Apply on an empty-at-the-key cache is exactly the cache-free stage
output. -/
theorem apply_of_empty {C : Type} (E : LayerEffect C) (l : Layer C) (ctx : RenderContext)
    (key : CacheKey) (versions : LayerVersions) (hc : l.cache key = none) :
    (l.apply E ctx key versions).2 = stageOut E l ctx := by
  obtain ⟨cfg, en, ver, cache⟩ := l
  simp only at hc
  cases cfg <;> cases en <;> simp [Layer.apply, Layer.get_cached, stageOut, hc]

/-- Apply on a consistent cache is exactly the cache-free stage output,
provided the effect's transform preserves the property slot and its emit
preserves the image (true of all three stage policies). -/
theorem apply_consistent {C : Type} (E : LayerEffect C) (l : Layer C) (ctx : RenderContext)
    (key : CacheKey) (versions : LayerVersions)
    (hd : ∀ c ctx1, (E.transform c ctx1).dominant = ctx1.dominant)
    (he : ∀ c ctx1, (E.emit c ctx1).image = ctx1.image)
    (hcons : layerConsistent E l key versions ctx) :
    (l.apply E ctx key versions).2 = stageOut E l ctx := by
  obtain ⟨cfg, en, ver, cache⟩ := l
  cases cfg with
  | none => cases en <;> rfl
  | some c =>
    cases en with
    | false => rfl
    | true =>
      rcases hg : Layer.get_cached ⟨some c, true, ver, cache⟩ key (E.dependencies versions)
          with _ | img
      · simp [Layer.apply, hg, stageOut]
      · have himg := hcons img hg
        have hstage : stageOut E ⟨some c, true, ver, cache⟩ ctx =
            E.emit c (E.transform c ctx) := rfl
        rw [hstage] at himg ⊢
        have happ : (Layer.apply ⟨some c, true, ver, cache⟩ E ctx key versions).2 =
            E.emit c { ctx with image := img } := by
          simp [Layer.apply, hg]
        rw [happ]
        congr 1
        apply RenderContext.ext'
        · rw [himg]
          exact he c (E.transform c ctx)
        · exact (hd c ctx).symm

/-- Rendering through a pipeline whose caches were just invalidated computes
the cache-free pipeline output. -/
theorem render_cleared (P : RasterPrims) (pl : LayerPipeline) (base : IconImage) :
    ((pl.invalidate_all).render P base).1 = (pureRender P pl base).image := by
  have hg : (pl.invalidate_all).composite.get_cached (CacheKey.from_icon base)
      (pl.invalidate_all).composite_dependencies = none := rfl
  rw [render_miss_eq P _ base hg]
  have e1 : ((pl.invalidate_all).hue.apply (hueEffect P) (RenderContext.new base)
      (CacheKey.from_icon base) (pl.invalidate_all).layer_versions).2 =
      stageOut (hueEffect P) pl.hue (RenderContext.new base) := by
    rw [apply_of_empty _ _ _ _ _ rfl]
    exact stageOut_congr _ _ _ _ rfl rfl
  rw [e1]
  have e2 : ((pl.invalidate_all).decal.apply (decalEffect P)
      (stageOut (hueEffect P) pl.hue (RenderContext.new base))
      (CacheKey.from_icon base) (pl.invalidate_all).layer_versions).2 =
      stageOut (decalEffect P) pl.decal
        (stageOut (hueEffect P) pl.hue (RenderContext.new base)) := by
    rw [apply_of_empty _ _ _ _ _ rfl]
    exact stageOut_congr _ _ _ _ rfl rfl
  rw [e2]
  have e3 : ((pl.invalidate_all).overlay.apply (overlayEffect P)
      (stageOut (decalEffect P) pl.decal
        (stageOut (hueEffect P) pl.hue (RenderContext.new base)))
      (CacheKey.from_icon base) (pl.invalidate_all).layer_versions).2 =
      stageOut (overlayEffect P) pl.overlay
        (stageOut (decalEffect P) pl.decal
          (stageOut (hueEffect P) pl.hue (RenderContext.new base))) := by
    rw [apply_of_empty _ _ _ _ _ rfl]
    exact stageOut_congr _ _ _ _ rfl rfl
  rw [e3]
  rfl

/-- Rendering through a pipeline with consistent caches computes the
cache-free pipeline output. -/
theorem render_consistent (P : RasterPrims) (pl : LayerPipeline) (base : IconImage)
    (h : pipelineConsistent P pl base) :
    (pl.render P base).1 = (pureRender P pl base).image := by
  obtain ⟨h1, h2, h3, h4⟩ := h
  rcases hg : pl.composite.get_cached (CacheKey.from_icon base) pl.composite_dependencies
      with _ | cached
  · rw [render_miss_eq P pl base hg]
    rw [apply_consistent (hueEffect P) pl.hue (RenderContext.new base) _ _
      (hue_transform_dominant P) (hue_emit_image P) h1]
    rw [apply_consistent (decalEffect P) pl.decal _ _ _
      (decal_transform_dominant P) (fun c ctx1 => rfl) h2]
    rw [apply_consistent (overlayEffect P) pl.overlay _ _ _
      (overlay_transform_dominant P) (fun c ctx1 => rfl) h3]
    rfl
  · rw [render_hit_eq P pl base cached hg]
    exact h4 cached hg

/-- Cache-free pipeline output only depends on configurations and enabled
flags. -/
theorem pureRender_congr (P : RasterPrims) (pl pl' : LayerPipeline) (base : IconImage)
    (h1 : pl.hue.config = pl'.hue.config) (h2 : pl.hue.enabled = pl'.hue.enabled)
    (h3 : pl.decal.config = pl'.decal.config) (h4 : pl.decal.enabled = pl'.decal.enabled)
    (h5 : pl.overlay.config = pl'.overlay.config)
    (h6 : pl.overlay.enabled = pl'.overlay.enabled) :
    pureRender P pl base = pureRender P pl' base := by
  unfold pureRender
  rw [stageOut_congr (hueEffect P) pl.hue pl'.hue _ h1 h2]
  rw [stageOut_congr (decalEffect P) pl.decal pl'.decal _ h3 h4]
  rw [stageOut_congr (overlayEffect P) pl.overlay pl'.overlay _ h5 h6]

/-- Claim C1 (amended): rendering the same base twice in succession with no
intervening stage mutation returns byte-for-byte identical images, and for
every pipeline state whose caches are consistent for the base image — in
particular any state whose caches were populated only by render itself — the
cache-hit output is pixel-identical to rendering the same base with the same
stage configurations after clear_cache. -/
theorem claim_C1_render_idempotent (P : RasterPrims) (pl : LayerPipeline) (base : IconImage) :
    ((pl.render P base).2.render P base).1 = (pl.render P base).1 ∧
    (pipelineConsistent P pl base →
      (pl.render P base).1 =
        (((pl.render P base).2.invalidate_all).render P base).1) := by
  refine ⟨render_twice P pl base, fun h => ?_⟩
  rw [render_cleared P (pl.render P base).2 base]
  rw [render_consistent P pl base h]
  have hp := render_preserves P pl base
  rw [pureRender_congr P pl (pl.render P base).2 base hp.1.symm hp.2.1.symm
    hp.2.2.2.1.symm hp.2.2.2.2.1.symm hp.2.2.2.2.2.2.1.symm hp.2.2.2.2.2.2.2.1.symm]

/-- Counterexample to claim C1 as stated over every pipeline state: a default
pipeline whose composite cache was poisoned through the public store method
returns the poisoned image on render, while rendering after clear_cache with
identical stage configurations returns the base image, and the two differ. -/
theorem claim_C1_render_idempotent_cex :
    (poisonedPipeline.render trivialPrims baseRed).1 = garbageIcon ∧
    (((poisonedPipeline.render trivialPrims baseRed).2.invalidate_all).render
      trivialPrims baseRed).1 = baseRed ∧
    garbageIcon ≠ baseRed := by
  have hhit : poisonedPipeline.composite.get_cached (CacheKey.from_icon baseRed)
      poisonedPipeline.composite_dependencies = some garbageIcon :=
    CompositeLayer.get_cached_store CompositeLayer.default (CacheKey.from_icon baseRed)
      garbageIcon LayerPipeline.default.composite_dependencies
  have h1 := render_hit_eq trivialPrims poisonedPipeline baseRed garbageIcon hhit
  refine ⟨by rw [h1], ?_, by simp [garbageIcon, baseRed]⟩
  rw [h1]
  rw [render_cleared trivialPrims poisonedPipeline baseRed]
  rfl

/-- Witness for claim C1 at concrete inputs: the default pipeline with empty
caches is consistent for baseRed, and its render equals the render after
clear_cache. -/
theorem claim_C1_render_idempotent_witness :
    pipelineConsistent trivialPrims LayerPipeline.default baseRed ∧
    (LayerPipeline.default.render trivialPrims baseRed).1 =
      (((LayerPipeline.default.render trivialPrims baseRed).2.invalidate_all).render
        trivialPrims baseRed).1 := by
  have hcons : pipelineConsistent trivialPrims LayerPipeline.default baseRed := by
    refine ⟨?_, ?_, ?_, ?_⟩ <;> intro img h <;>
      simp [Layer.get_cached, CompositeLayer.get_cached, LayerPipeline.default,
        Layer.default, CompositeLayer.default] at h
  exact ⟨hcons,
    (claim_C1_render_idempotent trivialPrims LayerPipeline.default baseRed).2 hcons⟩

/-- The minimum-tracking fold keeps the first element attaining the minimal
key: its result is in the list, its key is minimal, and every element before
it has a strictly larger key. -/
theorem foldl_min_spec {α : Type} (f : α → Nat) (xs : List α) (x : α) :
    (xs.foldl (fun acc y => if f y < f acc then y else acc) x) ∈ x :: xs ∧
    (∀ y ∈ x :: xs, f (xs.foldl (fun acc y => if f y < f acc then y else acc) x) ≤ f y) ∧
    ∃ l₁ l₂, x :: xs = l₁ ++ (xs.foldl (fun acc y => if f y < f acc then y else acc) x) :: l₂ ∧
      ∀ y ∈ l₁, f (xs.foldl (fun acc y => if f y < f acc then y else acc) x) < f y := by
  induction xs generalizing x with
  | nil => exact ⟨List.mem_cons_self x [], by simp, [], [], rfl, by simp⟩
  | cons z zs ih =>
    rw [List.foldl_cons]
    by_cases hz : f z < f x
    · rw [if_pos hz]
      obtain ⟨hmem, hmin, l₁, l₂, hsplit, hstrict⟩ := ih z
      refine ⟨List.mem_cons_of_mem x hmem, ?_, x :: l₁, l₂, ?_, ?_⟩
      · intro y hy
        rcases List.mem_cons.mp hy with h | h
        · subst h
          exact le_of_lt (lt_of_le_of_lt (hmin z (List.mem_cons_self z zs)) hz)
        · exact hmin y h
      · rw [List.cons_append, ← hsplit]
      · intro y hy
        rcases List.mem_cons.mp hy with h | h
        · subst h
          exact lt_of_le_of_lt (hmin z (List.mem_cons_self z zs)) hz
        · exact hstrict y h
    · rw [if_neg hz]
      push_neg at hz
      obtain ⟨hmem, hmin, l₁, l₂, hsplit, hstrict⟩ := ih x
      have hmem' : (zs.foldl (fun acc y => if f y < f acc then y else acc) x) ∈ x :: z :: zs := by
        rcases List.mem_cons.mp hmem with h | h
        · rw [h]; exact List.mem_cons_self x (z :: zs)
        · exact List.mem_cons_of_mem x (List.mem_cons_of_mem z h)
      have hmin' : ∀ y ∈ x :: z :: zs,
          f (zs.foldl (fun acc y => if f y < f acc then y else acc) x) ≤ f y := by
        intro y hy
        rcases List.mem_cons.mp hy with h | h
        · subst h; exact hmin y (List.mem_cons_self y zs)
        rcases List.mem_cons.mp h with h2 | h2
        · subst h2
          exact le_trans (hmin x (List.mem_cons_self x zs)) hz
        · exact hmin y (List.mem_cons_of_mem x h2)
      refine ⟨hmem', hmin', ?_⟩
      cases l₁ with
      | nil =>
        have hx := (List.cons.injEq _ _ _ _).mp hsplit
        refine ⟨[], z :: zs, ?_, by simp⟩
        simp [← hx.1]
      | cons a l₁' =>
        have hx := (List.cons.injEq _ _ _ _).mp hsplit
        refine ⟨x :: z :: l₁', l₂, ?_, ?_⟩
        · simp only [List.cons_append]
          conv_lhs => rw [hx.2]
          rfl
        · intro y hy
          have hr : f (zs.foldl (fun acc y => if f y < f acc then y else acc) x) < f x := by
            have := hstrict a (List.mem_cons_self a l₁')
            rw [← hx.1] at this
            exact this
          rcases List.mem_cons.mp hy with h | h
          · subst h; exact hr
          rcases List.mem_cons.mp h with h2 | h2
          · subst h2; exact lt_of_lt_of_le hr hz
          · exact hstrict y (List.mem_cons_of_mem a h2)

/-- min_by_key returns nothing exactly for the empty list. -/
theorem minByKey_eq_none_iff {α : Type} (f : α → Nat) (l : List α) :
    minByKey f l = none ↔ l = [] := by
  cases l <;> simp [minByKey]

/-- min_by_key returns an element of the list whose key is minimal, and every
element listed before it has a strictly larger key. -/
theorem minByKey_spec {α : Type} (f : α → Nat) (l : List α) (r : α)
    (h : minByKey f l = some r) :
    r ∈ l ∧ (∀ y ∈ l, f r ≤ f y) ∧
    ∃ l₁ l₂, l = l₁ ++ r :: l₂ ∧ ∀ y ∈ l₁, f r < f y := by
  cases l with
  | nil => simp [minByKey] at h
  | cons x xs =>
    have hr : xs.foldl (fun acc y => if f y < f acc then y else acc) x = r := by
      simpa [minByKey] using h
    have := foldl_min_spec f xs x
    rw [hr] at this
    exact this

/-- A rational quantity below one truncates to a zero u32. -/
theorem f32AsU32_eq_zero_of_lt_one {q : ℚ} (h : q < 1) : f32AsU32 q = 0 := by
  unfold f32AsU32
  split
  · rfl
  · rename_i hq
    push_neg at hq
    have hnum0 : 0 < q.num := Rat.num_pos.mpr hq
    have h1 : q.num < (q.den : Int) := Rat.lt_one_iff_num_lt_denom.mp h
    have hlt : q.num.toNat < q.den := by omega
    simp [Nat.div_eq_of_lt hlt]

/-- Truncating a natural number cast to the rationals saturates at u32::MAX. -/
theorem f32AsU32_natCast (n : Nat) : f32AsU32 (n : ℚ) = min n 4294967295 := by
  unfold f32AsU32
  split
  · rename_i h
    have h0 : (0 : ℚ) ≤ (n : ℚ) := Nat.cast_nonneg n
    have : (n : ℚ) = 0 := le_antisymm h h0
    have hn : n = 0 := by exact_mod_cast this
    simp [hn]
  · simp

/-- Claim C8 (amended): render through the customizer returns nothing exactly
when the base set is empty; otherwise it renders the entry that minimises the
u32-truncated absolute difference between logical width and the requested
size, ties on the truncated key broken by iteration order. -/
theorem claim_C8_closest_match (P : RasterPrims) (cust : IconCustomizer) (target : Nat) :
    ((cust.render P target).1 = none ↔ cust.base_icons.images = []) ∧
    (∀ base, cust.base_icons.find_by_logical_size target = some base →
      base ∈ cust.base_icons.images ∧
      (∀ b ∈ cust.base_icons.images, logicalKey target base ≤ logicalKey target b) ∧
      (∃ l₁ l₂, cust.base_icons.images = l₁ ++ base :: l₂ ∧
        ∀ b ∈ l₁, logicalKey target base < logicalKey target b) ∧
      (cust.render P target).1 = some (cust.pipeline.render P base).1) := by
  constructor
  · rcases hf : cust.base_icons.find_by_logical_size target with _ | base
    · have := (minByKey_eq_none_iff (logicalKey target) cust.base_icons.images).mp hf
      simp [IconCustomizer.render, hf, this]
    · have hne : cust.base_icons.images ≠ [] := by
        intro h
        rw [show cust.base_icons.find_by_logical_size target =
          minByKey (logicalKey target) cust.base_icons.images from rfl, h] at hf
        simp [minByKey] at hf
      simp [IconCustomizer.render, hf, hne]
  · intro base hf
    have hspec := minByKey_spec (logicalKey target) cust.base_icons.images base hf
    refine ⟨hspec.1, hspec.2.1, hspec.2.2, ?_⟩
    simp [IconCustomizer.render, hf]

/-- Counterexample to claim C8 as stated: against the base set listing
41x41@2x (logical width 20.5) before 40x40@2x (logical width 20), requesting
logical size 20 renders the 41x41 entry, although the 40x40 entry strictly
minimises |logical_width - requested| — both keys truncate to 0 and the tie
goes to the first entry. -/
theorem claim_C8_closest_match_cex :
    cust8.base_icons.find_by_logical_size 20 = some img41 ∧
    (cust8.render trivialPrims 20).1 = some img41 ∧
    |img40.logicalWidth - ((20 : Nat) : ℚ)| < |img41.logicalWidth - ((20 : Nat) : ℚ)| ∧
    img41 ≠ img40 := by
  have hk41 : logicalKey 20 img41 = 0 := by
    apply f32AsU32_eq_zero_of_lt_one
    show |((41 : Nat) : ℚ)/2 - ((20 : Nat) : ℚ)| < 1
    rw [abs_lt]
    constructor <;> (push_cast; norm_num)
  have hk40 : logicalKey 20 img40 = 0 := by
    apply f32AsU32_eq_zero_of_lt_one
    show |((40 : Nat) : ℚ)/2 - ((20 : Nat) : ℚ)| < 1
    rw [abs_lt]
    constructor <;> (push_cast; norm_num)
  have hfind : cust8.base_icons.find_by_logical_size 20 = some img41 := by
    show minByKey (logicalKey 20) [img41, img40] = some img41
    simp only [minByKey, List.foldl_cons, List.foldl_nil]
    rw [hk40, hk41]
    simp
  have hrender : (cust8.pipeline.render trivialPrims img41).1 = img41 := rfl
  have hlt : |img40.logicalWidth - ((20 : Nat) : ℚ)| <
      |img41.logicalWidth - ((20 : Nat) : ℚ)| := by
    show |((40 : Nat) : ℚ)/2 - ((20 : Nat) : ℚ)| < |((41 : Nat) : ℚ)/2 - ((20 : Nat) : ℚ)|
    rw [show ((40 : Nat) : ℚ)/2 - ((20 : Nat) : ℚ) = 0 by push_cast; ring]
    rw [show ((41 : Nat) : ℚ)/2 - ((20 : Nat) : ℚ) = 1/2 by push_cast; ring]
    rw [abs_zero, abs_of_pos (by norm_num)]
    norm_num
  refine ⟨hfind, ?_, hlt, by simp [img41, img40]⟩
  simp only [IconCustomizer.render, hfind, hrender]

/-- Witness for claim C8 (amended) at concrete inputs: for the base set with
16x16@1x and 32x32@1x, requesting logical size 20 yields an image (the set is
nonempty), the selected 16x16 entry is in the set with minimal truncated key,
and the rendered output is that entry. -/
theorem claim_C8_closest_match_witness :
    ¬((custD.render trivialPrims 20).1 = none) ∧
    img16 ∈ custD.base_icons.images ∧
    (∀ b ∈ custD.base_icons.images, logicalKey 20 img16 ≤ logicalKey 20 b) ∧
    (custD.render trivialPrims 20).1 = some img16 := by
  have h16 : |img16.logicalWidth - ((20 : Nat) : ℚ)| = ((4 : Nat) : ℚ) := by
    show |((16 : Nat) : ℚ)/1 - ((20 : Nat) : ℚ)| = ((4 : Nat) : ℚ)
    rw [abs_of_nonpos (by push_cast; norm_num)]
    push_cast
    ring
  have h32 : |img32.logicalWidth - ((20 : Nat) : ℚ)| = ((12 : Nat) : ℚ) := by
    show |((32 : Nat) : ℚ)/1 - ((20 : Nat) : ℚ)| = ((12 : Nat) : ℚ)
    rw [abs_of_nonneg (by push_cast; norm_num)]
    push_cast
    ring
  have hk16 : logicalKey 20 img16 = 4 := by
    show f32AsU32 |img16.logicalWidth - ((20 : Nat) : ℚ)| = 4
    rw [h16, f32AsU32_natCast]
    decide
  have hk32 : logicalKey 20 img32 = 12 := by
    show f32AsU32 |img32.logicalWidth - ((20 : Nat) : ℚ)| = 12
    rw [h32, f32AsU32_natCast]
    decide
  have hfind : custD.base_icons.find_by_logical_size 20 = some img16 := by
    show minByKey (logicalKey 20) [img16, img32] = some img16
    simp only [minByKey, List.foldl_cons, List.foldl_nil]
    rw [hk16, hk32]
    simp
  have h := claim_C8_closest_match trivialPrims custD 20
  have h2 := h.2 img16 hfind
  have hrender : (custD.pipeline.render trivialPrims img16).1 = img16 := rfl
  refine ⟨?_, h2.1, h2.2.1, ?_⟩
  · rw [h.1]
    simp [custD, IconCustomizer.new]
  · rw [h2.2.2.2, hrender]

/-- rem_euclid(360) fixes an already-normalised angle. -/
theorem qRemEuclid_eq_self {d : ℚ} (h0 : 0 ≤ d) (h1 : d < 360) : qRemEuclid d 360 = d := by
  unfold qRemEuclid
  have hf : ⌊d / 360⌋ = 0 := by
    rw [Int.floor_eq_zero_iff, Set.mem_Ico]
    exact ⟨div_nonneg h0 (by norm_num), (div_lt_one (by norm_num)).mpr h1⟩
  rw [hf]
  simp

/-- clamp(0, 1) fixes an already-clamped scale. -/
theorem qClamp_eq_self {s : ℚ} (h0 : 0 ≤ s) (h1 : s ≤ 1) : qClamp s 0 1 = s := by
  unfold qClamp
  rw [min_eq_left h1, max_eq_right h0]

/-- A hue configuration does not differ from itself. -/
theorem hue_differs_self (c : HueRotationConfig) :
    LayerConfig.differs_from c c = false := by
  show decide ((1 : ℚ)/1000 < |c.degrees - c.degrees|) = false
  simp

/-- A decal configuration does not differ from itself. -/
theorem decal_differs_self (c : DecalConfig) :
    LayerConfig.differs_from c c = false := by
  show decide (c.source ≠ c.source ∨ (1 : ℚ)/10000 < |c.scale - c.scale|) = false
  simp

/-- An overlay configuration does not differ from itself. -/
theorem overlay_differs_self (c : SvgOverlayConfig) :
    LayerConfig.differs_from c c = false := by
  show decide (c.source ≠ c.source ∨ c.position ≠ c.position ∨
    (1 : ℚ)/10000 < |c.scale - c.scale|) = false
  simp

/-- set_config with no configuration on an unconfigured layer is a no-op. -/
theorem set_config_none_none {C : Type} [LayerConfig C] (l : Layer C)
    (hc : l.config = none) : l.set_config none = (l, false) := by
  obtain ⟨cfg, en, ver, cache⟩ := l
  simp only at hc
  subst hc
  simp [Layer.set_config]

/-- set_config with a non-differing configuration is a no-op. -/
theorem set_config_same {C : Type} [LayerConfig C] (l : Layer C) (c0 c : C)
    (hc : l.config = some c0) (hd : LayerConfig.differs_from c0 c = false) :
    l.set_config (some c) = (l, false) := by
  obtain ⟨cfg, en, ver, cache⟩ := l
  simp only at hc
  subst hc
  simp [Layer.set_config, hd]

/-- set_config with a differing configuration replaces it, bumps the version
and clears the cache. -/
theorem set_config_changed_some {C : Type} [LayerConfig C] (l : Layer C) (c0 c : C)
    (hc : l.config = some c0) (hd : LayerConfig.differs_from c0 c = true) :
    l.set_config (some c) =
      ({ l with config := some c, version := wrapAdd l.version 1, cache := fun _ => none },
       true) := by
  obtain ⟨cfg, en, ver, cache⟩ := l
  simp only at hc
  subst hc
  simp [Layer.set_config, hd]

/-- set_enabled with the current flag is a no-op. -/
theorem set_enabled_noflip {C : Type} (l : Layer C) (b : Bool) (h : l.enabled = b) :
    l.set_enabled b = (l, false) := by
  subst h
  simp [Layer.set_enabled]

/-- Serialising and deserialising an SVG source is the identity. -/
theorem svgSource_roundtrip (s : SvgSource) : s.toSerializable.toSvgSource = s := by
  cases s <;> rfl

/-- Serialising and deserialising an overlay placement is the identity. -/
theorem position_roundtrip (p : OverlayPosition) : p.toSerializable.toOverlayPosition = p := by
  cases p <;> rfl

/-- Claim C9 (amended): for every customizer whose stored configurations are
in the constructors' normalised form (hue degrees in [0, 360), decal and
overlay scales in [0, 1]), exporting a profile and re-applying it to the same
customizer reproduces identical stage configurations and enabled flags,
field-for-field, for all three stages. -/
theorem claim_C9_profile_roundtrip (cust : IconCustomizer)
    (hhue : ∀ c, cust.pipeline.hue.config = some c → 0 ≤ c.degrees ∧ c.degrees < 360)
    (hdec : ∀ c, cust.pipeline.decal.config = some c → 0 ≤ c.scale ∧ c.scale ≤ 1)
    (hov : ∀ c, cust.pipeline.overlay.config = some c → 0 ≤ c.scale ∧ c.scale ≤ 1) :
    (cust.apply_profile cust.export_profile).pipeline.hue.config =
      cust.pipeline.hue.config ∧
    (cust.apply_profile cust.export_profile).pipeline.hue.enabled =
      cust.pipeline.hue.enabled ∧
    (cust.apply_profile cust.export_profile).pipeline.decal.config =
      cust.pipeline.decal.config ∧
    (cust.apply_profile cust.export_profile).pipeline.decal.enabled =
      cust.pipeline.decal.enabled ∧
    (cust.apply_profile cust.export_profile).pipeline.overlay.config =
      cust.pipeline.overlay.config ∧
    (cust.apply_profile cust.export_profile).pipeline.overlay.enabled =
      cust.pipeline.overlay.enabled := by
  have hhue1 : (cust.apply_profile cust.export_profile).pipeline.hue = cust.pipeline.hue := by
    rcases hc : cust.pipeline.hue.config with _ | c
    · have hexp : cust.export_profile.hue_rotation = none := by
        simp [IconCustomizer.export_profile, hc]
      simp only [IconCustomizer.apply_profile, hexp]
      rw [set_config_none_none cust.pipeline.hue hc]
    · obtain ⟨hd0, hd1⟩ := hhue c hc
      have hexp : cust.export_profile.hue_rotation =
          some ⟨c.degrees, cust.pipeline.hue.enabled⟩ := by
        simp [IconCustomizer.export_profile, hc]
      have hnew : HueRotationConfig.new c.degrees = c := by
        unfold HueRotationConfig.new
        rw [qRemEuclid_eq_self hd0 hd1]
      simp only [IconCustomizer.apply_profile, hexp]
      rw [hnew, set_config_same cust.pipeline.hue c c hc (hue_differs_self c)]
      rw [set_enabled_noflip cust.pipeline.hue cust.pipeline.hue.enabled rfl]
  have hdec1 : (cust.apply_profile cust.export_profile).pipeline.decal =
      cust.pipeline.decal := by
    rcases hc : cust.pipeline.decal.config with _ | c
    · have hexp : cust.export_profile.decal = none := by
        simp [IconCustomizer.export_profile, hc]
      simp only [IconCustomizer.apply_profile, hexp]
      rw [set_config_none_none cust.pipeline.decal hc]
    · obtain ⟨hd0, hd1⟩ := hdec c hc
      have hexp : cust.export_profile.decal =
          some ⟨c.source.toSerializable, c.scale, cust.pipeline.decal.enabled⟩ := by
        simp [IconCustomizer.export_profile, hc]
      have hnew : DecalConfig.from_source c.source.toSerializable.toSvgSource c.scale = c := by
        unfold DecalConfig.from_source
        rw [qClamp_eq_self hd0 hd1, svgSource_roundtrip]
      simp only [IconCustomizer.apply_profile, hexp]
      rw [hnew, set_config_same cust.pipeline.decal c c hc (decal_differs_self c)]
      rw [set_enabled_noflip cust.pipeline.decal cust.pipeline.decal.enabled rfl]
  have hov1 : (cust.apply_profile cust.export_profile).pipeline.overlay =
      cust.pipeline.overlay := by
    rcases hc : cust.pipeline.overlay.config with _ | c
    · have hexp : cust.export_profile.overlay = none := by
        simp [IconCustomizer.export_profile, hc]
      simp only [IconCustomizer.apply_profile, hexp]
      rw [set_config_none_none cust.pipeline.overlay hc]
    · obtain ⟨hd0, hd1⟩ := hov c hc
      have hexp : cust.export_profile.overlay =
          some ⟨c.source.toSerializable, c.position.toSerializable, c.scale,
            cust.pipeline.overlay.enabled⟩ := by
        simp [IconCustomizer.export_profile, hc]
      have hnew : SvgOverlayConfig.new c.source.toSerializable.toSvgSource
          c.position.toSerializable.toOverlayPosition c.scale = c := by
        unfold SvgOverlayConfig.new
        rw [qClamp_eq_self hd0 hd1, svgSource_roundtrip, position_roundtrip]
      simp only [IconCustomizer.apply_profile, hexp]
      rw [hnew, set_config_same cust.pipeline.overlay c c hc (overlay_differs_self c)]
      rw [set_enabled_noflip cust.pipeline.overlay cust.pipeline.overlay.enabled rfl]
  rw [hhue1, hdec1, hov1]
  exact ⟨rfl, rfl, rfl, rfl, rfl, rfl⟩

/-- Counterexample to claim C9 as stated over every customizer state: a hue
configuration of 500 degrees (constructible, since the field is public) is
replaced by 140 degrees when the exported profile is re-applied, because
apply_profile rebuilds the configuration through the normalising constructor
— the round trip is not field-for-field identity. -/
theorem claim_C9_profile_roundtrip_cex :
    cust500.pipeline.hue.config = some ⟨500⟩ ∧
    (cust500.apply_profile cust500.export_profile).pipeline.hue.config = some ⟨140⟩ ∧
    (some (⟨140⟩ : HueRotationConfig) ≠ some ⟨500⟩) := by
  have hc : cust500.pipeline.hue.config = some ⟨500⟩ := rfl
  have hfloor : ⌊(500 : ℚ)/360⌋ = 1 := by
    rw [Int.floor_eq_iff]
    constructor <;> norm_num
  have hrem : qRemEuclid 500 360 = 140 := by
    unfold qRemEuclid
    rw [hfloor]
    norm_num
  have hnew : HueRotationConfig.new 500 = ⟨140⟩ := by
    unfold HueRotationConfig.new
    rw [hrem]
  have hdif : LayerConfig.differs_from (⟨500⟩ : HueRotationConfig) ⟨140⟩ = true := by
    show decide ((1 : ℚ)/1000 < |(500 : ℚ) - 140|) = true
    rw [decide_eq_true_eq, abs_of_nonneg (by norm_num)]
    norm_num
  have hexp : cust500.export_profile.hue_rotation = some ⟨500, true⟩ := rfl
  have happly : (cust500.apply_profile cust500.export_profile).pipeline.hue =
      ((cust500.pipeline.hue.set_config (some (HueRotationConfig.new 500))).1.set_enabled
        true).1 := by
    simp only [IconCustomizer.apply_profile, hexp]
  refine ⟨hc, ?_, by simp⟩
  rw [happly, hnew, set_config_changed_some cust500.pipeline.hue ⟨500⟩ ⟨140⟩ hc hdif]
  rw [set_enabled_noflip _ true rfl]

/-- Witness for claim C9 (amended) at a concrete input: a customizer with hue
at 120 degrees and a disabled decal at scale 1/2 round-trips its
configurations and enabled flags exactly. -/
theorem claim_C9_profile_roundtrip_witness :
    (custNorm.apply_profile custNorm.export_profile).pipeline.hue.config =
      custNorm.pipeline.hue.config ∧
    (custNorm.apply_profile custNorm.export_profile).pipeline.hue.enabled =
      custNorm.pipeline.hue.enabled ∧
    (custNorm.apply_profile custNorm.export_profile).pipeline.decal.config =
      custNorm.pipeline.decal.config ∧
    (custNorm.apply_profile custNorm.export_profile).pipeline.decal.enabled =
      custNorm.pipeline.decal.enabled ∧
    (custNorm.apply_profile custNorm.export_profile).pipeline.overlay.config =
      custNorm.pipeline.overlay.config ∧
    (custNorm.apply_profile custNorm.export_profile).pipeline.overlay.enabled =
      custNorm.pipeline.overlay.enabled := by
  apply claim_C9_profile_roundtrip custNorm
  · intro c hc
    rw [show custNorm.pipeline.hue.config = some ⟨120⟩ from rfl] at hc
    injection hc with hc1
    subst hc1
    constructor <;> norm_num
  · intro c hc
    rw [show custNorm.pipeline.decal.config = some ⟨.Raw "star", 1/2⟩ from rfl] at hc
    injection hc with hc1
    subst hc1
    constructor <;> norm_num
  · intro c hc
    rw [show custNorm.pipeline.overlay.config = none from rfl] at hc
    cases hc

end Folco
